import Mathlib

/-!
Verification development for the `node-gofile` client library
(`src/index.js`).  The JavaScript source is shallowly embedded:

* `sha256hash` (src/index.js lines 45-50) delegates to node's
  `crypto.createHash("sha256").update(str).digest("hex")`; we embed the
  SHA-256 standard (FIPS 180-4) over UTF-8 bytes, with 32-bit words
  modelled as `Nat` reduced `% 2 ^ 32`, and the `"hex"` digest encoding
  as lowercase hexadecimal.
* each network operation (`getServer`, `uploadFiles`, `uploadFile`,
  `removeUpload`, `getUploadInfo`, `downloadFiles`) is embedded as a pure
  function of an environment `Env` that resolves every HTTP request
  (`axios` call) to either a transport/HTTP-error rejection or a parsed
  response body; every operation returns the list of HTTP requests it
  issued (in issue order) together with its result.
* a JavaScript function that may `throw` is embedded with result type
  `Except String _` (the string is the thrown error's message); the
  `try { ... } catch (e) { console.error(e); }` wrappers of the source are
  embedded by the `...Run` variants, which map a thrown error to `none`
  (JavaScript `undefined`), exactly as the source returns no value from
  its `catch` branch.
-/

namespace GoFile

/-- Decidable equality of `Except` results, for evaluating the model on
concrete inputs. -/
instance {ε α : Type} [DecidableEq ε] [DecidableEq α] :
    DecidableEq (Except ε α) := fun x y =>
  match x, y with
  | Except.error a, Except.error b =>
    if h : a = b then isTrue (by simp [h]) else isFalse (by simp [h])
  | Except.ok a, Except.ok b =>
    if h : a = b then isTrue (by simp [h]) else isFalse (by simp [h])
  | Except.error _, Except.ok _ => isFalse (by simp)
  | Except.ok _, Except.error _ => isFalse (by simp)

/-! ## SHA-256 (FIPS 180-4), as invoked by `sha256hash` -/

/-- UTF-8 encoding of one unicode code point (what `crypto.update` applies
to a JavaScript string by default). -/
def utf8Bytes (c : Nat) : List Nat :=
  if c < 0x80 then [c]
  else if c < 0x800 then
    [0xC0 ||| (c >>> 6), 0x80 ||| (c &&& 0x3F)]
  else if c < 0x10000 then
    [0xE0 ||| (c >>> 12), 0x80 ||| ((c >>> 6) &&& 0x3F), 0x80 ||| (c &&& 0x3F)]
  else
    [0xF0 ||| (c >>> 18), 0x80 ||| ((c >>> 12) &&& 0x3F),
      0x80 ||| ((c >>> 6) &&& 0x3F), 0x80 ||| (c &&& 0x3F)]

/-- The UTF-8 byte sequence of a string. -/
def strBytes (s : String) : List Nat :=
  (s.toList.map (fun c => utf8Bytes c.toNat)).flatten

/-- Big-endian 8-byte encoding of the message bit length. -/
def be64 (n : Nat) : List Nat :=
  (List.range 8).map (fun i => (n >>> (8 * (7 - i))) &&& 0xFF)

/-- SHA-256 message padding: `0x80`, zeros to 56 mod 64, 64-bit length. -/
def sha256pad (msg : List Nat) : List Nat :=
  let padZeros := (64 - ((msg.length + 9) % 64)) % 64
  msg ++ [0x80] ++ List.replicate padZeros 0 ++ be64 (8 * msg.length)

/-- Split a byte list into 64-byte blocks. -/
def chunks64 : List Nat → List (List Nat)
  | [] => []
  | x :: xs => ((x :: xs).take 64) :: chunks64 ((x :: xs).drop 64)
termination_by l => l.length
decreasing_by simp [List.length_drop]; omega

/-- Big-endian 32-bit words of a block. -/
def bytesToWords : List Nat → List Nat
  | b0 :: b1 :: b2 :: b3 :: rest =>
      ((b0 <<< 24) ||| (b1 <<< 16) ||| (b2 <<< 8) ||| b3) :: bytesToWords rest
  | _ => []

/-- Right rotation of a 32-bit word. -/
def rotr32 (n x : Nat) : Nat :=
  ((x >>> n) ||| (x <<< (32 - n))) % 2 ^ 32

def shaCh (x y z : Nat) : Nat := (x &&& y) ^^^ ((x ^^^ 0xFFFFFFFF) &&& z)

def shaMaj (x y z : Nat) : Nat := (x &&& y) ^^^ (x &&& z) ^^^ (y &&& z)

def bsig0 (x : Nat) : Nat := rotr32 2 x ^^^ rotr32 13 x ^^^ rotr32 22 x

def bsig1 (x : Nat) : Nat := rotr32 6 x ^^^ rotr32 11 x ^^^ rotr32 25 x

def ssig0 (x : Nat) : Nat := rotr32 7 x ^^^ rotr32 18 x ^^^ (x >>> 3)

def ssig1 (x : Nat) : Nat := rotr32 17 x ^^^ rotr32 19 x ^^^ (x >>> 10)

/-- The 64 SHA-256 round constants (FIPS 180-4 section 4.2.2, here in
decimal). -/
def shaK : List Nat :=
  [1116352408, 1899447441, 3049323471, 3921009573, 961987163,
   1508970993, 2453635748, 2870763221, 3624381080, 310598401,
   607225278, 1426881987, 1925078388, 2162078206, 2614888103,
   3248222580, 3835390401, 4022224774, 264347078, 604807628,
   770255983, 1249150122, 1555081692, 1996064986, 2554220882,
   2821834349, 2952996808, 3210313671, 3336571891, 3584528711,
   113926993, 338241895, 666307205, 773529912, 1294757372,
   1396182291, 1695183700, 1986661051, 2177026350, 2456956037,
   2730485921, 2820302411, 3259730800, 3345764771, 3516065817,
   3600352804, 4094571909, 275423344, 430227734, 506948616,
   659060556, 883997877, 958139571, 1322822218, 1537002063,
   1747873779, 1955562222, 2024104815, 2227730452, 2361852424,
   2428436474, 2756734187, 3204031479, 3329325298]

/-- Extend the 16 block words to the 64-entry message schedule. -/
def msgSchedule (ws : List Nat) : List Nat :=
  ((List.range 48).foldl
    (fun (a : Array Nat) _ =>
      let n := a.size
      a.push ((ssig1 (a.getD (n - 2) 0) + a.getD (n - 7) 0 +
        ssig0 (a.getD (n - 15) 0) + a.getD (n - 16) 0) % 2 ^ 32))
    ws.toArray).toList

/-- The eight 32-bit words of SHA-256 working state. -/
structure Hash8 where
  a : Nat
  b : Nat
  c : Nat
  d : Nat
  e : Nat
  f : Nat
  g : Nat
  h : Nat
deriving DecidableEq

/-- One SHA-256 compression round. -/
def sha256round (st : Hash8) (kw : Nat × Nat) : Hash8 :=
  let t1 := (st.h + bsig1 st.e + shaCh st.e st.f st.g + kw.1 + kw.2) % 2 ^ 32
  let t2 := (bsig0 st.a + shaMaj st.a st.b st.c) % 2 ^ 32
  ⟨(t1 + t2) % 2 ^ 32, st.a, st.b, st.c, (st.d + t1) % 2 ^ 32, st.e, st.f, st.g⟩

/-- Compress one 64-byte block into the running state. -/
def processBlock (st : Hash8) (block : List Nat) : Hash8 :=
  let ws := msgSchedule (bytesToWords block)
  let t := (shaK.zip ws).foldl sha256round st
  ⟨(st.a + t.a) % 2 ^ 32, (st.b + t.b) % 2 ^ 32, (st.c + t.c) % 2 ^ 32,
   (st.d + t.d) % 2 ^ 32, (st.e + t.e) % 2 ^ 32, (st.f + t.f) % 2 ^ 32,
   (st.g + t.g) % 2 ^ 32, (st.h + t.h) % 2 ^ 32⟩

/-- SHA-256 initial hash value (FIPS 180-4 section 5.3.3, in decimal). -/
def initH : Hash8 :=
  ⟨1779033703, 3144134277, 1013904242, 2773480762,
   1359893119, 2600822924, 528734635, 1541459225⟩

/-- SHA-256 of a byte sequence. -/
def sha256 (msg : List Nat) : Hash8 :=
  (chunks64 (sha256pad msg)).foldl processBlock initH

/-- The lowercase hexadecimal digit of a nibble (node's `"hex"` digest
encoding): code point 48 + n for 0-9, 87 + n for 10-15. -/
def hexChar (n : Nat) : Char :=
  if n < 10 then Char.ofNat (48 + n)
  else if n < 16 then Char.ofNat (87 + n)
  else Char.ofNat 48

/-- Big-endian 8-hex-digit rendering of a 32-bit word. -/
def toHexChars (w : Nat) : List Char :=
  (List.range 8).map (fun i => hexChar ((w >>> (4 * (7 - i))) % 16))

/-- src/index.js lines 45-50: `sha256hash(str)` returns
`crypto.createHash("sha256").update(str).digest("hex")`. -/
def sha256hash (s : String) : String :=
  let t := sha256 (strBytes s)
  String.mk (toHexChars t.a ++ toHexChars t.b ++ toHexChars t.c ++
    toHexChars t.d ++ toHexChars t.e ++ toHexChars t.f ++
    toHexChars t.g ++ toHexChars t.h)

/-! ## Data model

JavaScript values that the operations manipulate.  `Option` models a
field that may be `undefined`; JavaScript truthiness of a string option
is `some s` with `s ≠ ""`, of a numeric option `some q` with `q ≠ 0`.
JavaScript numbers are modelled by `ℚ` (the source only adds, divides by
1000, compares and rounds them; no float-rounding-sensitive arithmetic
occurs). -/

/-- The content source of one file (`FileUpload.file` in the source's
typedef): a `Buffer`, a readable stream, or anything else. -/
inductive FileContent where
  | buffer (bytes : String)
  | streamSrc (s : String)
  | other
deriving DecidableEq

/-- `FileUpload` typedef (src/index.js lines 8-13): content plus an
optional file name. -/
structure FileUpload where
  file : FileContent
  fn : Option String
deriving DecidableEq

/-- `UploadOptions` typedef (src/index.js lines 14-20).  The `expire`
field is modelled as a number (the claims under study concern numeric
expiration values; `!isNaN` is then always true). -/
structure UploadOptions where
  description : Option String
  password : Option String
  expire : Option ℚ
deriving DecidableEq

/-- The empty options object `{}` (the source's parameter default). -/
def noOptions : UploadOptions := ⟨none, none, none⟩

/-- One entry of `UploadInfo.files`: the fields `downloadFiles` reads. -/
structure FileEntry where
  name : String
  link : String
deriving DecidableEq

/-- The `data` member of a service response envelope, with the fields the
source reads (`server` for the broker, `code`/`removalCode` for uploads,
`files` for info). -/
structure RespData where
  server : String
  code : String
  removalCode : String
  files : List FileEntry
deriving DecidableEq

/-- A resolved `axios` response: `status`/`data` are the parsed envelope
body fields (a missing `data` member is `none`, JavaScript `undefined`);
`fileData` is the raw body of a direct file download. -/
structure Resp where
  status : String
  data : Option RespData
  fileData : String
deriving DecidableEq

/-- A value appended to the multipart `FormData`. -/
inductive FormValue where
  | filePart (content : FileContent) (filename : Option String)
  | str (s : String)
  | num (n : ℤ)
deriving DecidableEq

/-- One HTTP request the client can issue, identified by endpoint and the
data the source puts into it. -/
inductive HttpReq where
  | getServer (code : Option String)
  | upload (server : String) (form : List (String × FormValue))
  | getUpload (server : String) (code : String) (p : Option String)
  | deleteUpload (server : String) (code : String) (rc : String)
  | fileGet (link : String) (responseType : String)
deriving DecidableEq

/-- The external world: `resp` resolves each request to an `axios`
rejection (network/HTTP error, carrying its message) or a response;
`delay` gives each request's completion time (used only by the
`Promise.all` fan-in to pick which rejection settles first); `now` is
`Date.now()` in milliseconds. -/
structure Env where
  resp : HttpReq → Except String Resp
  delay : HttpReq → Nat
  now : ℚ

/-- JavaScript template-literal interpolation of a possibly-undefined
string (`undefined` prints as `"undefined"`). -/
def jsStringOf : Option String → String
  | some s => s
  | none => "undefined"

/-- `Math.round`: round half toward positive infinity. -/
def jsRound (q : ℚ) : ℤ := ⌊q + 1 / 2⌋

/-- The `catch (e) { console.error(e); }` of an operation whose `try`
block returns a possibly-undefined value: a thrown error falls through to
`undefined`, so the caller cannot tell the two apart. -/
def jsCatch : Except String (Option RespData) → Option RespData
  | Except.error _ => none
  | Except.ok v => v

/-! ## Operations -/

/-- `try` body of `getServer(code)` (src/index.js lines 52-81): GET the
broker, throw on non-`"ok"` status, return `res.data.data.server` (which
first throws a `TypeError` if `data` is absent). -/
def getServerTry (env : Env) (code : Option String) :
    List HttpReq × Except String String :=
  let req := HttpReq.getServer code
  ([req],
    match env.resp req with
    | Except.error e => Except.error e
    | Except.ok res =>
      if res.status ≠ "ok" then
        Except.error ("Fetching server info failed: ")
      else
        match res.data with
        | none => Except.error ("TypeError: cannot read server of undefined")
        | some d => Except.ok d.server)

/-- `getServer(code)` with its `catch`: a thrown error is logged and the
function returns `undefined`. -/
def getServerRun (env : Env) (code : Option String) :
    List HttpReq × Option String :=
  let r := getServerTry env code
  (r.1, r.2.toOption)

/-- `if (options.description) { ... }` (src/index.js lines 104-110):
skipped unless truthy; length-validated, appended or thrown. -/
def descEntries (d : Option String) :
    Except String (List (String × FormValue)) :=
  if (match d with | none => false | some s => decide (s ≠ "")) then
    let s := d.getD ""
    if s.length ≤ 1000 then Except.ok [("description", FormValue.str s)]
    else Except.error ("Invalid value for field description. ")
  else Except.ok []

/-- The regex `/^[a-z0-9]{6,20}$/i` of src/index.js line 112. -/
def passwordOk (s : String) : Bool :=
  decide (6 ≤ s.length) && decide (s.length ≤ 20) &&
    s.toList.all (fun c => c.isAlphanum)

/-- `if (options.password) { ... }` (src/index.js lines 111-117). -/
def passEntries (p : Option String) :
    Except String (List (String × FormValue)) :=
  if (match p with | none => false | some s => decide (s ≠ "")) then
    let s := p.getD ""
    if passwordOk s then Except.ok [("password", FormValue.str s)]
    else Except.error ("Invalid value for field password. ")
  else Except.ok []

/-- `if (options.expire) { ... }` (src/index.js lines 118-135).  The
source's guard is the ternary
`!isNaN(e) && e > 10000000000 ? e : e / 1000 > Date.now() / 1000`
(`&&` binds tighter than `?:`): when the numeric value exceeds
10,000,000,000 the guard is the value itself (truthy, since nonzero —
note: no future check happens in this branch), otherwise it is the
comparison `e / 1000 > Date.now() / 1000`.  On success the appended value
is `Math.round(e > 10000000000 ? e : e / 1000)`. -/
def expireEntries (eo : Option ℚ) (now : ℚ) :
    Except String (List (String × FormValue)) :=
  if (match eo with | none => false | some q => decide (q ≠ 0)) then
    let x := eo.getD 0
    if (if x > 10000000000 then decide (x ≠ 0)
        else decide (x / 1000 > now / 1000)) then
      Except.ok [("expire",
        FormValue.num (jsRound (if x > 10000000000 then x else x / 1000)))]
    else Except.error ("Invalid value for field expire. ")
  else Except.ok []

/-- The option fields of src/index.js lines 104-135 in source order
(description, then password, then expire), with the first thrown error
short-circuiting the rest. -/
def optionEntries (o : UploadOptions) (now : ℚ) :
    Except String (List (String × FormValue)) :=
  match descEntries o.description with
  | Except.error e => Except.error e
  | Except.ok d =>
    match passEntries o.password with
    | Except.error e => Except.error e
    | Except.ok p =>
      match expireEntries o.expire now with
      | Except.error e => Except.error e
      | Except.ok x => Except.ok (d ++ p ++ x)

/-- src/index.js lines 94-100: `if (f.fn === "") fd.append(k, f.file)
else fd.append(k, f.file, f.fn)` — an explicitly empty name is dropped;
an absent name passes `undefined` (also no explicit part name). -/
def partName : Option String → Option String
  | some s => if s = "" then none else some s
  | none => none

/-- `try` body of `uploadFiles(files, options)` (src/index.js lines
89-164): resolve an unscoped server (its own failure is swallowed and
yields the hostname `"undefined"` in the URL template), build the form
(one `filesUploaded` part per file, a constant `category`, then the
validated options, whose first invalid field throws before the POST),
POST it, throw on non-`"ok"` status, return `res.data.data`. -/
def uploadFilesTry (env : Env) (files : List FileUpload)
    (options : UploadOptions) :
    List HttpReq × Except String (Option RespData) :=
  let sr := getServerRun env none
  let server := jsStringOf sr.2
  let parts := files.map
    (fun f => ("filesUploaded", FormValue.filePart f.file (partName f.fn)))
  match optionEntries options env.now with
  | Except.error e => (sr.1, Except.error e)
  | Except.ok opts =>
    let form := parts ++ [("category", FormValue.str "file")] ++ opts
    let req := HttpReq.upload server form
    match env.resp req with
    | Except.error e => (sr.1 ++ [req], Except.error e)
    | Except.ok res =>
      if res.status ≠ "ok" then
        (sr.1 ++ [req], Except.error ("Uploading file failed: "))
      else (sr.1 ++ [req], Except.ok res.data)

/-- `uploadFiles` with its `catch`: any thrown error is logged and the
call resolves to `undefined`. -/
def uploadFilesRun (env : Env) (files : List FileUpload)
    (options : UploadOptions) : List HttpReq × Option RespData :=
  let r := uploadFilesTry env files options
  (r.1, jsCatch r.2)

/-- The second positional argument of `uploadFile`: a string, an options
object, or `undefined`. -/
inductive JsArg where
  | undef
  | str (s : String)
  | obj (o : UploadOptions)
deriving DecidableEq

/-- `arg2 && arg2 !== "" && typeof arg2 !== "object"` (src/index.js
lines 185 and 191): a truthy non-empty non-object value, i.e. a
non-empty string. -/
def nameArgOk : JsArg → Bool
  | JsArg.str s => decide (s ≠ "")
  | _ => false

def argStr : JsArg → String
  | JsArg.str s => s
  | _ => ""

/-- A `JsArg` used where `uploadFiles` expects its options parameter
(src/index.js line 194 passes `arg2` there): an object is the options;
`undefined` (or any non-object, whose property reads are `undefined`)
acts as the empty options object. -/
def argOptions : JsArg → UploadOptions
  | JsArg.obj o => o
  | _ => noOptions

/-- `uploadFile(arg1, arg2, arg3)` (src/index.js lines 183-199).  There
is no `try`/`catch` here: the two `throw Error(...)` paths propagate to
the caller.  A delegated call returns whatever `uploadFiles` resolves to
(possibly `undefined`, its errors being swallowed inside). -/
def uploadFileRun (env : Env) (arg1 : FileContent) (arg2 : JsArg)
    (arg3 : Option UploadOptions) :
    List HttpReq × Except String (Option RespData) :=
  match arg1 with
  | FileContent.buffer b =>
    if nameArgOk arg2 then
      let r := uploadFilesRun env [⟨FileContent.buffer b, some (argStr arg2)⟩]
        (arg3.getD noOptions)
      (r.1, Except.ok r.2)
    else ([], Except.error ("Filename must not be blank when using a Buffer."))
  | FileContent.streamSrc s =>
    if nameArgOk arg2 then
      let r := uploadFilesRun env [⟨FileContent.streamSrc s, some (argStr arg2)⟩]
        (arg3.getD noOptions)
      (r.1, Except.ok r.2)
    else
      let r := uploadFilesRun env [⟨FileContent.streamSrc s, none⟩]
        (argOptions arg2)
      (r.1, Except.ok r.2)
  | FileContent.other => ([], Except.error ("Invalid file type"))

/-- `try` body of `removeUpload(code, removalCode)` (src/index.js lines
206-234): resolve the server scoped to `code`, GET the delete endpoint,
throw on non-`"ok"` status, return `res.data.data`. -/
def removeUploadTry (env : Env) (code rc : String) :
    List HttpReq × Except String (Option RespData) :=
  let sr := getServerRun env (some code)
  let server := jsStringOf sr.2
  let req := HttpReq.deleteUpload server code rc
  match env.resp req with
  | Except.error e => (sr.1 ++ [req], Except.error e)
  | Except.ok res =>
    if res.status ≠ "ok" then
      (sr.1 ++ [req], Except.error ("Removing file failed: "))
    else (sr.1 ++ [req], Except.ok res.data)

/-- `removeUpload` with its `catch`. -/
def removeUploadRun (env : Env) (code rc : String) :
    List HttpReq × Option RespData :=
  let r := removeUploadTry env code rc
  (r.1, jsCatch r.2)

/-- `try` body of `getUploadInfo(code, p = "")` (src/index.js lines
242-272): resolve the server scoped to `code`, GET the info endpoint —
with query parameter `&p=${sha256hash(p)}` exactly when `p && p !== ""`
— throw on non-`"ok"` status, return `res.data.data`. -/
def getUploadInfoTry (env : Env) (code p : String) :
    List HttpReq × Except String (Option RespData) :=
  let sr := getServerRun env (some code)
  let server := jsStringOf sr.2
  let pq := if p ≠ "" then some (sha256hash p) else none
  let req := HttpReq.getUpload server code pq
  match env.resp req with
  | Except.error e => (sr.1 ++ [req], Except.error e)
  | Except.ok res =>
    if res.status ≠ "ok" then
      (sr.1 ++ [req], Except.error ("Fetching file info failed: "))
    else (sr.1 ++ [req], Except.ok res.data)

/-- `getUploadInfo` with its `catch`. -/
def getUploadInfoRun (env : Env) (code p : String) :
    List HttpReq × Option RespData :=
  let r := getUploadInfoTry env code p
  (r.1, jsCatch r.2)

/-- Helper for the `Promise.all` fan-in: scan the launched requests in
array order, keeping the rejection with the smallest completion delay
(JavaScript's `Promise.all` settles on whichever rejection completes
first; ties go to the earlier index). -/
def firstRejAux (ds : List Nat) : Nat → Option (Nat × String) →
    List (Except String Resp) → Option (Nat × String)
  | _, best, [] => best
  | i, best, x :: xs =>
    match x with
    | Except.ok _ => firstRejAux ds (i + 1) best xs
    | Except.error e =>
      let best2 := match best with
        | none => some (i, e)
        | some b => if ds.getD i 0 < ds.getD b.1 0 then some (i, e) else some b
      firstRejAux ds (i + 1) best2 xs

/-- The first rejection, in completion order, among the fan-out
requests. -/
def firstRejection (outs : List (Except String Resp)) (ds : List Nat) :
    Option String :=
  (firstRejAux ds 0 none outs).map (fun b => b.2)

/-- `Promise.all(reqs)` (src/index.js line 308): if every request
resolves, the values are delivered in the order of the request array
(never in completion order); if any request rejects, the aggregate
rejects with the earliest-completing rejection's reason. -/
def promiseAll (outs : List (Except String Resp)) (ds : List Nat) :
    Except String (List Resp) :=
  match firstRejection outs ds with
  | some e => Except.error e
  | none => Except.ok (outs.filterMap Except.toOption)

/-- `try` body of `downloadFiles(code, p = "", responseType =
"arraybuffer")` (src/index.js lines 281-312): fetch the upload info
(whose own errors are swallowed into `undefined`, making the subsequent
`uploadInfo.files` read throw), then
`Object.keys(uploadInfo.files).map(k => files[k])` — on the JSON array
this enumerates indices `"0"`, `"1"`, ... in ascending order, i.e. the
manifest's own order — issue one GET per entry, and
`(await Promise.all(reqs)).map(r => r.data)` — the await of the
aggregate, then the projection of each response body, embedded below as
`fanIn` applied to `promiseAll`. -/
def fanIn (t : List HttpReq) (P : Except String (List Resp)) :
    List HttpReq × Except String (List String) :=
  match P with
  | Except.error e => (t, Except.error e)
  | Except.ok rs => (t, Except.ok (rs.map (fun r => r.fileData)))

/-- `try` body of `downloadFiles` continued: see `fanIn` above. -/
def downloadFilesTry (env : Env) (code p responseType : String) :
    List HttpReq × Except String (List String) :=
  let ir := getUploadInfoRun env code p
  match ir.2 with
  | none => (ir.1, Except.error ("TypeError: cannot read files of undefined"))
  | some info =>
    let reqs := info.files.map (fun f => HttpReq.fileGet f.link responseType)
    let outs := reqs.map env.resp
    let ds := reqs.map env.delay
    fanIn (ir.1 ++ reqs) (promiseAll outs ds)

/-- `downloadFiles` with its `catch`. -/
def downloadFilesRun (env : Env) (code p responseType : String) :
    List HttpReq × Option (List String) :=
  let r := downloadFilesTry env code p responseType
  (r.1, r.2.toOption)

/-! ## Helper lemmas -/

/-- A lowercase hexadecimal digit. -/
def isLowerHexDigit (c : Char) : Bool :=
  (decide ('0' ≤ c) && decide (c ≤ '9')) || (decide ('a' ≤ c) && decide (c ≤ 'f'))

theorem hexChar_hex (n : Nat) : isLowerHexDigit (hexChar n) = true := by
  rcases Nat.lt_or_ge n 16 with h | h
  · interval_cases n <;> decide
  · have h1 : ¬ n < 10 := by omega
    have h2 : ¬ n < 16 := by omega
    rw [hexChar, if_neg h1, if_neg h2]
    decide

theorem toHexChars_length (w : Nat) : (toHexChars w).length = 8 := by
  simp [toHexChars]

theorem toHexChars_hex (w : Nat) (c : Char) (hc : c ∈ toHexChars w) :
    isLowerHexDigit c = true := by
  simp only [toHexChars, List.mem_map] at hc
  obtain ⟨i, _, rfl⟩ := hc
  exact hexChar_hex _

theorem sha256hash_length (s : String) : (sha256hash s).length = 64 := by
  simp [sha256hash, String.length, toHexChars_length]

theorem sha256hash_hex (s : String) :
    (sha256hash s).toList.all isLowerHexDigit = true := by
  rw [List.all_eq_true]
  intro c hc
  simp only [sha256hash, String.toList, String.mk, List.mem_append] at hc
  rcases hc with ((((((h | h) | h) | h) | h) | h) | h) | h <;>
    exact toHexChars_hex _ _ h

theorem sha256hash_ne_of_length (p : String) (h : p.length ≠ 64) :
    sha256hash p ≠ p := by
  intro he
  exact h (by rw [← he]; exact sha256hash_length p)

/-- Total extraction from a resolved request (used only where every
request is known to have resolved). -/
def okD : Except String Resp → Resp
  | Except.ok r => r
  | Except.error _ => ⟨"", none, ""⟩

theorem firstRejAux_all_ok (ds : List Nat) (xs : List (Except String Resp)) :
    ∀ i best, (∀ x ∈ xs, ∃ r, x = Except.ok r) →
    firstRejAux ds i best xs = best := by
  induction xs with
  | nil => intro i best _; rfl
  | cons x xs ih =>
    intro i best h
    obtain ⟨r, rfl⟩ := h x (by simp)
    rw [firstRejAux]
    exact ih _ _ (fun y hy => h y (by simp [hy]))

theorem firstRejAux_some (ds : List Nat) (xs : List (Except String Resp)) :
    ∀ i b, ∃ c, firstRejAux ds i (some b) xs = some c := by
  induction xs with
  | nil => intro i b; exact ⟨b, rfl⟩
  | cons x xs ih =>
    intro i b
    cases x with
    | ok r => rw [firstRejAux]; exact ih _ _
    | error e =>
      rw [firstRejAux]
      split
      · exact ih _ _
      · exact ih _ _

theorem firstRejAux_of_err (ds : List Nat) (xs : List (Except String Resp))
    (e : String) : ∀ i, Except.error e ∈ xs →
    ∃ c, firstRejAux ds i none xs = some c := by
  induction xs with
  | nil => intro i h; simp at h
  | cons x xs ih =>
    intro i h
    cases x with
    | ok r =>
      rw [firstRejAux]
      refine ih _ ?_
      rcases List.mem_cons.mp h with h2 | h2
      · exact absurd h2 (by simp)
      · exact h2
    | error f =>
      rw [firstRejAux]
      exact firstRejAux_some _ _ _ _

theorem all_ok_of_firstRejection_none (ds : List Nat)
    (xs : List (Except String Resp)) (h : firstRejection xs ds = none) :
    ∀ x ∈ xs, ∃ r, x = Except.ok r := by
  intro x hx
  cases x with
  | ok r => exact ⟨r, rfl⟩
  | error e =>
    obtain ⟨c, hc⟩ := firstRejAux_of_err ds xs e 0 hx
    rw [firstRejection, hc] at h
    simp at h

theorem filterMap_toOption_all_ok (xs : List (Except String Resp))
    (h : ∀ x ∈ xs, ∃ r, x = Except.ok r) :
    xs.filterMap Except.toOption = xs.map okD := by
  induction xs with
  | nil => rfl
  | cons x xs ih =>
    obtain ⟨r, rfl⟩ := h x (by simp)
    simp only [List.filterMap_cons, List.map_cons, Except.toOption, okD]
    rw [ih (fun y hy => h y (by simp [hy]))]

theorem promiseAll_all_ok (xs : List (Except String Resp)) (ds : List Nat)
    (h : ∀ x ∈ xs, ∃ r, x = Except.ok r) :
    promiseAll xs ds = Except.ok (xs.map okD) := by
  rw [promiseAll, firstRejection, firstRejAux_all_ok ds xs 0 none h]
  rw [filterMap_toOption_all_ok xs h]
  rfl

theorem promiseAll_err (xs : List (Except String Resp)) (ds : List Nat)
    (e : String) (h : Except.error e ∈ xs) :
    ∃ m, promiseAll xs ds = Except.error m := by
  obtain ⟨c, hc⟩ := firstRejAux_of_err ds xs e 0 h
  rw [promiseAll, firstRejection, hc]
  exact ⟨c.2, rfl⟩

theorem uploadFilesTry_err_opts (env : Env) (files : List FileUpload)
    (o : UploadOptions) (m : String)
    (h : optionEntries o env.now = Except.error m) :
    uploadFilesTry env files o = ([HttpReq.getServer none], Except.error m) := by
  unfold uploadFilesTry
  rw [h]
  rfl

theorem uploadFilesTry_ok_opts (env : Env) (files : List FileUpload)
    (o : UploadOptions) (l : List (String × FormValue))
    (h : optionEntries o env.now = Except.ok l) :
    (uploadFilesTry env files o).1
      = [HttpReq.getServer none,
         HttpReq.upload (jsStringOf (getServerRun env none).2)
           (files.map (fun f =>
              ("filesUploaded", FormValue.filePart f.file (partName f.fn)))
             ++ [("category", FormValue.str ("file"))] ++ l)] := by
  unfold uploadFilesTry
  rw [h]
  dsimp only
  split
  · rfl
  · split <;> rfl

theorem getUploadInfoRun_fst (env : Env) (code p : String) :
    (getUploadInfoRun env code p).1
      = [HttpReq.getServer (some code),
         HttpReq.getUpload (jsStringOf (getServerRun env (some code)).2) code
           (if p ≠ "" then some (sha256hash p) else none)] := by
  unfold getUploadInfoRun getUploadInfoTry
  dsimp only
  split
  · rfl
  · split <;> rfl

theorem descEntries_falsy (d : Option String)
    (hd : d = none ∨ d = some "") : descEntries d = Except.ok [] := by
  rcases hd with rfl | rfl <;> simp [descEntries]

theorem passEntries_falsy (p : Option String)
    (hp : p = none ∨ p = some "") : passEntries p = Except.ok [] := by
  rcases hp with rfl | rfl <;> simp [passEntries]

theorem optionEntries_falsy (d p : Option String) (eo : Option ℚ) (now : ℚ)
    (hd : d = none ∨ d = some "") (hp : p = none ∨ p = some "") :
    optionEntries ⟨d, p, eo⟩ now = optionEntries ⟨none, none, eo⟩ now := by
  unfold optionEntries
  rw [descEntries_falsy d hd, passEntries_falsy p hp]
  rfl

theorem expireEntries_cases (eo : Option ℚ) (now : ℚ) :
    expireEntries eo now = Except.ok []
  ∨ (∃ v, expireEntries eo now = Except.ok [("expire", v)])
  ∨ expireEntries eo now = Except.error ("Invalid value for field expire. ") := by
  unfold expireEntries
  split
  · dsimp only
    split <;> split
    · exact Or.inr (Or.inl ⟨_, rfl⟩)
    · exact Or.inr (Or.inr rfl)
    · exact Or.inr (Or.inl ⟨_, rfl⟩)
    · exact Or.inr (Or.inr rfl)
  · exact Or.inl rfl

theorem expireEntries_shape (eo : Option ℚ) (now : ℚ)
    (l : List (String × FormValue))
    (h : expireEntries eo now = Except.ok l) :
    l = [] ∨ ∃ v, l = [("expire", v)] := by
  rcases expireEntries_cases eo now with h0 | ⟨v, h0⟩ | h0 <;> rw [h0] at h
  · rw [Except.ok.injEq] at h
    exact Or.inl h.symm
  · rw [Except.ok.injEq] at h
    exact Or.inr ⟨v, h.symm⟩
  · exact absurd h (by simp)

theorem fanIn_snd_toOption (t : List HttpReq) (P : Except String (List Resp)) :
    (fanIn t P).2.toOption
      = P.toOption.map (List.map (fun r => r.fileData)) := by
  cases P <;> rfl

theorem promiseAll_toOption_delay (xs : List (Except String Resp))
    (ds1 ds2 : List Nat) :
    (promiseAll xs ds1).toOption = (promiseAll xs ds2).toOption := by
  by_cases h : ∀ x ∈ xs, ∃ r, x = Except.ok r
  · rw [promiseAll_all_ok xs ds1 h, promiseAll_all_ok xs ds2 h]
  · push_neg at h
    obtain ⟨x, hx, hnr⟩ := h
    cases x with
    | ok r => exact absurd rfl (hnr r)
    | error e =>
      obtain ⟨m1, h1⟩ := promiseAll_err xs ds1 e hx
      obtain ⟨m2, h2⟩ := promiseAll_err xs ds2 e hx
      rw [h1, h2]
      rfl

theorem downloadFilesTry_ok (env : Env) (code p rt : String)
    (info : RespData) (hinfo : (getUploadInfoRun env code p).2 = some info)
    (hok : ∀ f ∈ info.files,
      ∃ r, env.resp (HttpReq.fileGet f.link rt) = Except.ok r) :
    (downloadFilesTry env code p rt).2
      = Except.ok (info.files.map
          (fun f => (okD (env.resp (HttpReq.fileGet f.link rt))).fileData)) := by
  unfold downloadFilesTry
  dsimp only
  rw [hinfo]
  dsimp only
  have hall : ∀ x ∈ (info.files.map
      (fun f => HttpReq.fileGet f.link rt)).map env.resp,
      ∃ r, x = Except.ok r := by
    intro x hx
    simp only [List.map_map, List.mem_map, Function.comp] at hx
    obtain ⟨f, hf, rfl⟩ := hx
    exact hok f hf
  rw [promiseAll_all_ok _ _ hall]
  simp [fanIn, List.map_map, Function.comp]

theorem downloadFilesTry_err (env : Env) (code p rt : String)
    (info : RespData) (hinfo : (getUploadInfoRun env code p).2 = some info)
    (f0 : FileEntry) (hf : f0 ∈ info.files) (e : String)
    (he : env.resp (HttpReq.fileGet f0.link rt) = Except.error e) :
    ∃ m, (downloadFilesTry env code p rt).2 = Except.error m := by
  unfold downloadFilesTry
  dsimp only
  rw [hinfo]
  dsimp only
  have hmem : Except.error e ∈ (info.files.map
      (fun f => HttpReq.fileGet f.link rt)).map env.resp := by
    simp only [List.map_map, List.mem_map, Function.comp]
    exact ⟨f0, hf, he⟩
  obtain ⟨m, hm⟩ := promiseAll_err _ ((info.files.map
    (fun f => HttpReq.fileGet f.link rt)).map env.delay) e hmem
  rw [hm]
  exact ⟨m, rfl⟩

/-! ## Claims -/

/-- C9: for every string input, including the empty string, the
passphrase hash function `sha256hash` succeeds (it is a total function),
is deterministic (equal inputs give equal outputs), and returns a
64-character lowercase hexadecimal string. -/
theorem sha256hash_spec (p : String) :
    (sha256hash p).length = 64
  ∧ (sha256hash p).toList.all isLowerHexDigit = true
  ∧ ∀ q : String, p = q → sha256hash p = sha256hash q :=
  ⟨sha256hash_length p, sha256hash_hex p, fun _ hq => hq ▸ rfl⟩

theorem sha256hash_spec_witness :
    (sha256hash ("")).length = 64
  ∧ (sha256hash ("")).toList.all isLowerHexDigit = true
  ∧ sha256hash ("") = sha256hash ("") :=
  ⟨(sha256hash_spec ("")).1, (sha256hash_spec ("")).2.1,
   (sha256hash_spec ("")).2.2 ("") rfl⟩

/-- An environment whose broker request fails (used as a concrete
instance for trace statements, which hold for every environment). -/
def envC8 : Env := ⟨fun _ => Except.error ("net"), fun _ => 0, 0⟩

/-- C8: for every non-empty passphrase, the info request carries the
passphrase's SHA-256 digest as its query parameter — never the plaintext
(the parameter equals `sha256hash p`, which differs from `p` whenever `p`
is not a fixed point of the hash) — and for an empty passphrase no
passphrase parameter is attached at all. -/
theorem getUploadInfo_passphrase_hashing (env : Env) (code p : String) :
    (p ≠ "" → (getUploadInfoRun env code p).1
      = [HttpReq.getServer (some code),
         HttpReq.getUpload (jsStringOf (getServerRun env (some code)).2) code
           (some (sha256hash p))])
  ∧ (p = "" → (getUploadInfoRun env code p).1
      = [HttpReq.getServer (some code),
         HttpReq.getUpload (jsStringOf (getServerRun env (some code)).2) code
           none])
  ∧ (sha256hash p ≠ p → ∀ s q,
      HttpReq.getUpload s code q ∈ (getUploadInfoRun env code p).1 →
      q ≠ some p) := by
  refine ⟨?_, ?_, ?_⟩
  · intro hp
    rw [getUploadInfoRun_fst, if_pos hp]
  · intro hp
    rw [getUploadInfoRun_fst, if_neg (by simp [hp])]
  · intro hne s q hq
    rw [getUploadInfoRun_fst] at hq
    rcases List.mem_cons.mp hq with h | h
    · exact absurd h (by simp)
    · simp only [List.mem_singleton, HttpReq.getUpload.injEq] at h
      obtain ⟨-, -, hqq⟩ := h
      intro hqp
      rw [hqq] at hqp
      by_cases hp : p = ""
      · simp [hp] at hqp
      · rw [if_pos hp] at hqp
        rw [Option.some.injEq] at hqp
        exact hne hqp

theorem getUploadInfo_passphrase_hashing_witness :
    ((getUploadInfoRun envC8 ("c1") ("pw")).1
      = [HttpReq.getServer (some ("c1")),
         HttpReq.getUpload (jsStringOf (getServerRun envC8 (some ("c1"))).2)
           ("c1") (some (sha256hash ("pw")))])
  ∧ (∀ s q, HttpReq.getUpload s ("c1") q ∈
      (getUploadInfoRun envC8 ("c1") ("pw")).1 → q ≠ some ("pw")) :=
  ⟨(getUploadInfo_passphrase_hashing envC8 ("c1") ("pw")).1 (by decide),
   (getUploadInfo_passphrase_hashing envC8 ("c1") ("pw")).2.2
     (sha256hash_ne_of_length ("pw") (by decide))⟩

/-- A broker environment answering `{status:"ok", data:{server:"srv1"}}`. -/
def envC6 : Env :=
  ⟨fun _ => Except.ok ⟨"ok", some ⟨"srv1", "", "", []⟩, ""⟩, fun _ => 0, 0⟩

/-- C6: for every broker response, server resolution throws (the spec's
`ServerResolutionError`; the exported wrapper then swallows it, see C2)
when the response's status is not `"ok"`, and otherwise returns the
worker hostname `res.data.data.server` from the success payload. -/
theorem getServer_status_check (env : Env) (c : Option String) (res : Resp)
    (hres : env.resp (HttpReq.getServer c) = Except.ok res) :
    (res.status ≠ "ok" →
      (getServerTry env c).2 = Except.error ("Fetching server info failed: "))
  ∧ (res.status = "ok" → ∀ d, res.data = some d →
      (getServerTry env c).2 = Except.ok d.server) := by
  constructor
  · intro hs
    unfold getServerTry
    dsimp only
    rw [hres]
    dsimp only
    rw [if_pos hs]
  · intro hs d hd
    unfold getServerTry
    dsimp only
    rw [hres]
    dsimp only
    rw [if_neg (by simp [hs]), hd]

theorem getServer_status_check_witness :
    (getServerTry envC6 none).2 = Except.ok (("srv1" : String)) :=
  (getServer_status_check envC6 none ⟨"ok", some ⟨"srv1", "", "", []⟩, ""⟩
    rfl).2 rfl ⟨"srv1", "", "", []⟩ rfl

/-- An environment in which every request fails at transport level. -/
def envNetDown : Env := ⟨fun _ => Except.error ("network down"), fun _ => 0, 0⟩

/-- An environment whose upload endpoint answers `{status:"ok"}` with the
`data` member absent: an internally successful call that resolves to
`undefined`. -/
def envEmptyData : Env :=
  ⟨fun req => match req with
    | HttpReq.getServer none => Except.ok ⟨"ok", some ⟨"s1", "", "", []⟩, ""⟩
    | HttpReq.upload _ _ => Except.ok ⟨"ok", none, ""⟩
    | _ => Except.error ("x"),
   fun _ => 0, 0⟩

/-- C2: every operation (server resolution, upload, info fetch, download,
removal) catches every internal failure — transport rejection or
non-success service status, all of which surface as a thrown error in the
`try` body — logs it, and resolves to `undefined` (`none`) instead of
propagating; consequently a failed call and a successful call whose
success payload is itself `undefined` are indistinguishable, as the two
concrete environments of the final conjunct exhibit. -/
theorem silent_failure_swallowing :
    (∀ (env : Env) (c : Option String) (e : String),
      (getServerTry env c).2 = Except.error e → (getServerRun env c).2 = none)
  ∧ (∀ (env : Env) (fs : List FileUpload) (o : UploadOptions) (e : String),
      (uploadFilesTry env fs o).2 = Except.error e →
      (uploadFilesRun env fs o).2 = none)
  ∧ (∀ (env : Env) (c p e : String),
      (getUploadInfoTry env c p).2 = Except.error e →
      (getUploadInfoRun env c p).2 = none)
  ∧ (∀ (env : Env) (c p rt e : String),
      (downloadFilesTry env c p rt).2 = Except.error e →
      (downloadFilesRun env c p rt).2 = none)
  ∧ (∀ (env : Env) (c rc e : String),
      (removeUploadTry env c rc).2 = Except.error e →
      (removeUploadRun env c rc).2 = none)
  ∧ ((uploadFilesTry envNetDown [] noOptions).2
        = Except.error ("network down")
      ∧ (uploadFilesTry envEmptyData [] noOptions).2 = Except.ok none
      ∧ (uploadFilesRun envNetDown [] noOptions).2
          = (uploadFilesRun envEmptyData [] noOptions).2) := by
  refine ⟨?_, ?_, ?_, ?_, ?_, by decide, by decide, by decide⟩
  · intro env c e h
    unfold getServerRun
    dsimp only
    rw [h]
    rfl
  · intro env fs o e h
    unfold uploadFilesRun
    dsimp only
    rw [h]
    rfl
  · intro env c p e h
    unfold getUploadInfoRun
    dsimp only
    rw [h]
    rfl
  · intro env c p rt e h
    unfold downloadFilesRun
    dsimp only
    rw [h]
    rfl
  · intro env c rc e h
    unfold removeUploadRun
    dsimp only
    rw [h]
    rfl

theorem silent_failure_swallowing_witness :
    (getServerRun envNetDown none).2 = none :=
  silent_failure_swallowing.1 envNetDown none ("network down") (by decide)

/-- A broker-unreachable environment with `Date.now()` equal to
1,760,000,000,000 ms (so the current epoch time in whole seconds is
1,760,000,000). -/
def envC1 : Env := ⟨fun _ => Except.error ("net"), fun _ => 0, 1760000000000⟩

/-- C1 counterexample.  The claim asserts that in both branches the
resolved value must exceed the current time and that a one-hour-ahead
expiration passes whether given in seconds or milliseconds, transmitted
as whole seconds.  At current time 1,760,000,000,000 ms: (1) the
one-hour-ahead value in seconds, 1,760,003,600, is below the
10,000,000,000 threshold, so the code compares `e / 1000 > now / 1000`,
i.e. 1,760,003.6 > 1,760,000,000, which is false — validation throws,
refuting the claimed acceptance; (2) the one-hour-ahead value in
milliseconds, 1,763,600,000,000, exceeds the threshold and is attached
unchanged — 1,763,600,000,000, a millisecond value, not the whole-second
1,763,600,000 the claim requires; (3) the same failure surfaces from the
full upload path. -/
theorem expire_claim_counterexample :
    expireEntries (some 1760003600) 1760000000000
      = Except.error ("Invalid value for field expire. ")
  ∧ expireEntries (some 1763600000000) 1760000000000
      = Except.ok [("expire", FormValue.num 1763600000000)]
  ∧ (uploadFilesTry envC1 [] ⟨none, none, some 1760003600⟩).2
      = Except.error ("Invalid value for field expire. ") := by
  have h1 : expireEntries (some 1760003600) 1760000000000
      = Except.error ("Invalid value for field expire. ") := by
    unfold expireEntries
    norm_num
  refine ⟨h1, ?_, ?_⟩
  · unfold expireEntries jsRound
    norm_num
  · have hopt : optionEntries ⟨none, none, some 1760003600⟩ envC1.now
        = Except.error ("Invalid value for field expire. ") := by
      unfold optionEntries
      rw [descEntries_falsy none (Or.inl rfl),
        passEntries_falsy none (Or.inl rfl)]
      dsimp only
      rw [show envC1.now = (1760000000000 : ℚ) from rfl, h1]
    rw [uploadFilesTry_err_opts envC1 []
      ⟨none, none, some 1760003600⟩ ("Invalid value for field expire. ") hopt]

/-- C1 amended: for a nonzero numeric expiration `x` and current time
`now` (milliseconds), the source accepts `x` whenever `x > 10^10` — with
no future check at all in that branch — attaching `Math.round(x)`
unchanged (milliseconds stay milliseconds); for `x ≤ 10^10` it accepts
exactly when `x / 1000 > now / 1000` (i.e. `x` exceeds the current time
in *milliseconds*, which a future timestamp expressed in seconds never
does in practice), attaching `Math.round(x / 1000)`; otherwise the
upload fails with the invalid-option error for field `"expire"`. -/
theorem expire_validation_amended (x now : ℚ) (hx : x ≠ 0) :
    (x > 10000000000 →
      expireEntries (some x) now
        = Except.ok [("expire", FormValue.num (jsRound x))])
  ∧ (¬ x > 10000000000 → x / 1000 > now / 1000 →
      expireEntries (some x) now
        = Except.ok [("expire", FormValue.num (jsRound (x / 1000)))])
  ∧ (¬ x > 10000000000 → ¬ x / 1000 > now / 1000 →
      expireEntries (some x) now
        = Except.error ("Invalid value for field expire. "))
  ∧ (∀ (env : Env) (files : List FileUpload) (m : String),
      env.now = now → expireEntries (some x) now = Except.error m →
      (uploadFilesTry env files ⟨none, none, some x⟩).2 = Except.error m) := by
  refine ⟨?_, ?_, ?_, ?_⟩
  · intro hgt
    simp [expireEntries, hx, hgt]
  · intro hng hfut
    simp [expireEntries, hx, hng, hfut]
  · intro hng hnf
    simp [expireEntries, hx, hng, hnf]
  · intro env files m hnow h
    have hopt : optionEntries ⟨none, none, some x⟩ env.now
        = Except.error m := by
      unfold optionEntries
      rw [descEntries_falsy none (Or.inl rfl),
        passEntries_falsy none (Or.inl rfl)]
      dsimp only
      rw [hnow, h]
    rw [uploadFilesTry_err_opts env files ⟨none, none, some x⟩ m hopt]

theorem expire_validation_amended_witness :
    expireEntries (some 20000000000) 0
      = Except.ok [("expire", FormValue.num (jsRound 20000000000))] :=
  (expire_validation_amended 20000000000 0 (by norm_num)).1 (by norm_num)

/-- C10: an upload options object carrying a falsy value (absent, or the
empty string) in its `description` or `password` field is silently
skipped: the field is not validated, cannot cause the invalid-option
rejection for that field, is not attached to the multipart form, and the
whole upload behaves exactly as if the field were absent — because
presence is tested by truthiness (`if (options.description)`), not
definedness. -/
theorem falsy_options_skipped (d p : Option String) (eo : Option ℚ)
    (now : ℚ) (hd : d = none ∨ d = some "") (hp : p = none ∨ p = some "") :
    optionEntries ⟨d, p, eo⟩ now = optionEntries ⟨none, none, eo⟩ now
  ∧ (∀ l, optionEntries ⟨d, p, eo⟩ now = Except.ok l →
      ∀ v, ¬ ("description", v) ∈ l ∧ ¬ ("password", v) ∈ l)
  ∧ optionEntries ⟨d, p, eo⟩ now
      ≠ Except.error ("Invalid value for field description. ")
  ∧ optionEntries ⟨d, p, eo⟩ now
      ≠ Except.error ("Invalid value for field password. ")
  ∧ (∀ (env : Env) (files : List FileUpload),
      uploadFilesTry env files ⟨d, p, eo⟩
        = uploadFilesTry env files ⟨none, none, eo⟩) := by
  have heq := optionEntries_falsy d p eo now hd hp
  have heqe : optionEntries ⟨none, none, eo⟩ now = expireEntries eo now := by
    unfold optionEntries
    rw [descEntries_falsy none (Or.inl rfl),
      passEntries_falsy none (Or.inl rfl)]
    dsimp only
    cases hE : expireEntries eo now <;> simp
  refine ⟨heq, ?_, ?_, ?_, ?_⟩
  · intro l hl v
    rw [heq, heqe] at hl
    rcases expireEntries_shape eo now l hl with rfl | ⟨w, rfl⟩
    · simp
    · constructor <;> simp
  · rw [heq, heqe]
    intro hE
    rcases expireEntries_cases eo now with h0 | ⟨v, h0⟩ | h0 <;>
      rw [h0] at hE <;> simp at hE
  · rw [heq, heqe]
    intro hE
    rcases expireEntries_cases eo now with h0 | ⟨v, h0⟩ | h0 <;>
      rw [h0] at hE <;> simp at hE
  · intro env files
    unfold uploadFilesTry
    rw [optionEntries_falsy d p eo env.now hd hp]

theorem falsy_options_skipped_witness :
    optionEntries ⟨some (""), none, none⟩ 0
      = optionEntries ⟨none, none, none⟩ 0 :=
  (falsy_options_skipped (some ("")) none none 0 (Or.inr rfl) (Or.inl rfl)).1

/-- A working broker and upload endpoint: the broker returns server
`"s1"`, the upload endpoint answers
`{status:"ok", data:{code:"abc123", removalCode:"xyz"}}`. -/
def envC3 : Env :=
  ⟨fun req => match req with
    | HttpReq.getServer none => Except.ok ⟨"ok", some ⟨"s1", "", "", []⟩, ""⟩
    | HttpReq.upload _ _ => Except.ok ⟨"ok", some ⟨"", "abc123", "xyz", []⟩, ""⟩
    | _ => Except.error ("net"),
   fun _ => 0, 0⟩

/-- C3 counterexample: with the empty file list, `uploadFiles` does not
fail with `InvalidFileError` and performs network calls: it issues the
broker call first and then POSTs an upload whose form contains no file
part, returning the service payload — there is no emptiness
precondition in the source. -/
theorem uploadFiles_empty_counterexample :
    (uploadFilesRun envC3 [] noOptions).1
      = [HttpReq.getServer none,
         HttpReq.upload ("s1") [("category", FormValue.str ("file"))]]
  ∧ (uploadFilesRun envC3 [] noOptions).2 = some ⟨"", "abc123", "xyz", []⟩ :=
  ⟨by decide, by decide⟩

/-- C3 amended: for every environment and options, `uploadFiles` applied
to the empty list raises no `InvalidFileError`; it performs the broker
network call first (before any inspection of the file list), and when
the options validate it proceeds to submit an upload request whose
multipart form contains no file part — only the category marker and the
validated option fields. -/
theorem uploadFiles_empty_amended (env : Env) (o : UploadOptions) :
    (uploadFilesRun env [] o).1.head? = some (HttpReq.getServer none)
  ∧ (∀ l, optionEntries o env.now = Except.ok l →
      (uploadFilesRun env [] o).1
        = [HttpReq.getServer none,
           HttpReq.upload (jsStringOf (getServerRun env none).2)
             (("category", FormValue.str ("file")) :: l)]) := by
  have hfst : (uploadFilesRun env [] o).1 = (uploadFilesTry env [] o).1 := rfl
  constructor
  · cases hO : optionEntries o env.now with
    | error m =>
      rw [hfst, uploadFilesTry_err_opts env [] o m hO]
      rfl
    | ok l =>
      rw [hfst, uploadFilesTry_ok_opts env [] o l hO]
      rfl
  · intro l hO
    rw [hfst, uploadFilesTry_ok_opts env [] o l hO]
    simp

theorem uploadFiles_empty_amended_witness :
    (uploadFilesRun envC3 [] noOptions).1
      = [HttpReq.getServer none,
         HttpReq.upload (jsStringOf (getServerRun envC3 none).2)
           [("category", FormValue.str ("file"))]] :=
  (uploadFiles_empty_amended envC3 noOptions).2 [] (by decide)

/-- An environment with a two-entry manifest whose file links both
resolve. -/
def envC4 : Env :=
  ⟨fun req => match req with
    | HttpReq.getServer _ => Except.ok ⟨"ok", some ⟨"s1", "", "", []⟩, ""⟩
    | HttpReq.getUpload _ _ _ =>
      Except.ok ⟨"ok",
        some ⟨"", "", "", [⟨"a.txt", "LA"⟩, ⟨"b.txt", "LB"⟩]⟩, ""⟩
    | HttpReq.fileGet ("LA") _ => Except.ok ⟨"", none, "payloadA"⟩
    | HttpReq.fileGet ("LB") _ => Except.ok ⟨"", none, "payloadB"⟩
    | _ => Except.error ("net"),
   fun _ => 0, 0⟩

/-- C4: when the info fetch succeeds and every per-file request
resolves, the download-all operation returns one payload per manifest
entry, ordered by the manifest's own key enumeration (`Object.keys` of
the file array yields ascending indices), never by network-completion
order: the result is the map of the response bodies over `info.files`
in list order, and the exported outcome is invariant under arbitrary
reassignment of the requests' completion delays. -/
theorem downloadFiles_manifest_order (env : Env) (code p rt : String)
    (info : RespData) (hinfo : (getUploadInfoRun env code p).2 = some info)
    (hok : ∀ f ∈ info.files,
      ∃ r, env.resp (HttpReq.fileGet f.link rt) = Except.ok r) :
    (downloadFilesRun env code p rt).2
      = some (info.files.map
          (fun f => (okD (env.resp (HttpReq.fileGet f.link rt))).fileData))
  ∧ ∀ d1 d2 : HttpReq → Nat,
      (downloadFilesRun ⟨env.resp, d1, env.now⟩ code p rt).2
        = (downloadFilesRun ⟨env.resp, d2, env.now⟩ code p rt).2 := by
  constructor
  · unfold downloadFilesRun
    dsimp only
    rw [downloadFilesTry_ok env code p rt info hinfo hok]
    rfl
  · intro d1 d2
    have hIR : getUploadInfoRun ⟨env.resp, d1, env.now⟩ code p
        = getUploadInfoRun ⟨env.resp, d2, env.now⟩ code p := rfl
    unfold downloadFilesRun downloadFilesTry
    dsimp only
    rw [hIR]
    cases hI : (getUploadInfoRun ⟨env.resp, d2, env.now⟩ code p).2 with
    | none => rfl
    | some info2 =>
      dsimp only
      rw [fanIn_snd_toOption, fanIn_snd_toOption, promiseAll_toOption_delay]

theorem downloadFiles_manifest_order_witness :
    (downloadFilesRun envC4 ("c") ("") ("arraybuffer")).2
      = some (["payloadA", "payloadB"]) := by
  have h := (downloadFiles_manifest_order envC4 ("c") ("") ("arraybuffer")
    ⟨"", "", "", [⟨"a.txt", "LA"⟩, ⟨"b.txt", "LB"⟩]⟩ (by decide)
    (by intro f hf; fin_cases hf <;> exact ⟨_, rfl⟩)).1
  rw [h]
  decide

/-- A one-entry manifest whose file link rejects. -/
def envC5 : Env :=
  ⟨fun req => match req with
    | HttpReq.getServer _ => Except.ok ⟨"ok", some ⟨"s1", "", "", []⟩, ""⟩
    | HttpReq.getUpload _ _ _ =>
      Except.ok ⟨"ok", some ⟨"", "", "", [⟨"a.txt", "LA"⟩]⟩, ""⟩
    | HttpReq.fileGet _ _ => Except.error ("boom")
    | _ => Except.error ("net"),
   fun _ => 0, 0⟩

/-- C5: if any one of the concurrent per-file requests fails, the whole
download-all operation fails — the `try` body rejects (the spec's
`DownloadError`; the exported call then swallows it into `undefined`,
see C2) — and no partial array of payloads is ever produced: the
operation resolves with an array only when every request succeeded. -/
theorem downloadFiles_all_or_nothing (env : Env) (code p rt : String)
    (info : RespData) (hinfo : (getUploadInfoRun env code p).2 = some info)
    (f0 : FileEntry) (hf : f0 ∈ info.files) (e : String)
    (he : env.resp (HttpReq.fileGet f0.link rt) = Except.error e) :
    (∃ m, (downloadFilesTry env code p rt).2 = Except.error m)
  ∧ (downloadFilesRun env code p rt).2 = none
  ∧ ∀ out, (downloadFilesTry env code p rt).2 ≠ Except.ok out := by
  obtain ⟨m, hm⟩ := downloadFilesTry_err env code p rt info hinfo f0 hf e he
  refine ⟨⟨m, hm⟩, ?_, ?_⟩
  · unfold downloadFilesRun
    dsimp only
    rw [hm]
    rfl
  · intro out hout
    rw [hm] at hout
    simp at hout

theorem downloadFiles_all_or_nothing_witness :
    (downloadFilesRun envC5 ("c") ("") ("arraybuffer")).2 = none :=
  (downloadFiles_all_or_nothing envC5 ("c") ("") ("arraybuffer")
    ⟨"", "", "", [⟨"a.txt", "LA"⟩]⟩ (by decide) ⟨"a.txt", "LA"⟩ (by decide)
    ("boom") (by decide)).2.1

/-- The mocked service of the spec's single-file test: upload answers
`{status:"ok", data:{code:"abc123", removalCode:"xyz"}}`. -/
def envC7 : Env :=
  ⟨fun req => match req with
    | HttpReq.getServer none => Except.ok ⟨"ok", some ⟨"s1", "", "", []⟩, ""⟩
    | HttpReq.upload _ _ => Except.ok ⟨"ok", some ⟨"", "abc123", "xyz", []⟩, ""⟩
    | _ => Except.error ("net"),
   fun _ => 0, 0⟩

/-- C7: the single-file upload throws (uncaught — `uploadFile` has no
`try`/`catch`) the blank-filename error for a `Buffer` whose second
argument is `undefined`, the empty string, or an options object (i.e.
no non-empty display name), throws the invalid-type error for a content
source that is neither a `Buffer` nor a readable stream, and for a
`Buffer` with a non-empty name delegates to the multi-file upload,
yielding exactly the code/removalCode payload of the mocked success
response. -/
theorem uploadFile_dispatch :
    (∀ (env : Env) (b : String) (a3 : Option UploadOptions),
      (uploadFileRun env (FileContent.buffer b) JsArg.undef a3).2
        = Except.error ("Filename must not be blank when using a Buffer.")
      ∧ (uploadFileRun env (FileContent.buffer b) (JsArg.str ("")) a3).2
        = Except.error ("Filename must not be blank when using a Buffer.")
      ∧ ∀ o, (uploadFileRun env (FileContent.buffer b) (JsArg.obj o) a3).2
        = Except.error ("Filename must not be blank when using a Buffer."))
  ∧ (∀ (env : Env) (a2 : JsArg) (a3 : Option UploadOptions),
      (uploadFileRun env FileContent.other a2 a3).2
        = Except.error ("Invalid file type"))
  ∧ (∀ (env : Env) (b nm : String) (a3 : Option UploadOptions), nm ≠ "" →
      uploadFileRun env (FileContent.buffer b) (JsArg.str nm) a3
        = ((uploadFilesRun env [⟨FileContent.buffer b, some nm⟩]
            (a3.getD noOptions)).1,
           Except.ok (uploadFilesRun env [⟨FileContent.buffer b, some nm⟩]
            (a3.getD noOptions)).2))
  ∧ ((uploadFileRun envC7 (FileContent.buffer ("B")) (JsArg.str ("f.txt"))
        none).2 = Except.ok (some ⟨"", "abc123", "xyz", []⟩)) := by
  refine ⟨?_, ?_, ?_, by decide⟩
  · intro env b a3
    exact ⟨rfl, rfl, fun o => rfl⟩
  · intro env a2 a3
    rfl
  · intro env b nm a3 hnm
    unfold uploadFileRun
    dsimp only
    rw [if_pos (by simp [nameArgOk, hnm])]
    rfl

theorem uploadFile_dispatch_witness :
    uploadFileRun envC7 (FileContent.buffer ("B")) (JsArg.str ("f.txt")) none
      = ((uploadFilesRun envC7 [⟨FileContent.buffer ("B"), some ("f.txt")⟩]
          (Option.getD none noOptions)).1,
         Except.ok (uploadFilesRun envC7
          [⟨FileContent.buffer ("B"), some ("f.txt")⟩]
          (Option.getD none noOptions)).2) :=
  uploadFile_dispatch.2.2.1 envC7 ("B") ("f.txt") none (by decide)

end GoFile
